import Mathlib

/- Verification of the streamed-audio playback engine and the vector
   utilities of the SFML repository.  The code is shallowly embedded: the
   Vector2 operations are translated from include/SFML/System/Vector2.inl,
   and the sf::SoundStream engine is modelled as a sequential state
   machine.  The SoundStream member-function bodies are declared in
   include/SFML/Audio/SoundStream.hpp but their translation unit is not in
   the reviewed tree, so those operations are modelled from the design
   document (sections 4 and 5), with the class declaration (constants,
   member initializers, documented contracts) taken from the header. -/

namespace SfmlSpec

/-- Vector2 from include/SFML/System/Vector2.inl: a pair of components of
an arbitrary arithmetic type, mirroring the C++ class template. -/
structure Vector2 (α : Type) where
  x : α
  y : α
deriving DecidableEq, Repr

/-- cwiseDiv from Vector2.inl lines 94-100.  The two asserts on the
divisor components are modelled by returning none when either would fire
(division by zero is undefined behavior in the source); the quotient is
formed only when both components are non-zero. -/
def Vector2.cwiseDiv {α : Type} [Zero α] [Div α] [DecidableEq α]
    (v r : Vector2 α) : Option (Vector2 α) :=
  if r.x = 0 ∨ r.y = 0 then none else some ⟨v.x / r.x, v.y / r.y⟩

/-- Scalar division operator/ from Vector2.inl lines 177-182, with the
assert on the divisor modelled as none. -/
def Vector2.divScalar {α : Type} [Zero α] [Div α] [DecidableEq α]
    (v : Vector2 α) (c : α) : Option (Vector2 α) :=
  if c = 0 then none else some ⟨v.x / c, v.y / c⟩

/-- Compound assignment operator/= from Vector2.inl lines 186-194: divides
both components in place and returns the updated vector, with the assert
on the divisor modelled as none. -/
def Vector2.divAssign {α : Type} [Zero α] [Div α] [DecidableEq α]
    (v : Vector2 α) (c : α) : Option (Vector2 α) :=
  if c = 0 then none else some ⟨v.x / c, v.y / c⟩

/-- PlaybackState (SoundSource::Status): Stopped, Paused or Playing. -/
inductive Status where
  | Stopped
  | Paused
  | Playing
deriving DecidableEq, Repr

/-- BufferCount from SoundStream.hpp line 333: the ring holds three
buffers. -/
def BufferCount : Nat := 3

/-- BufferRetries from SoundStream.hpp line 334: number of retries
(excluding the initial try) for onGetData. -/
def BufferRetries : Nat := 2

/-- One backend buffer in flight: its sample count and its loopSeek marker
(an m_bufferSeeks entry, SoundStream.hpp line 350; none models the NoLoop
sentinel of SoundStream.hpp lines 184-187). -/
structure BufEntry where
  sampleCount : Nat
  seek : Option Nat
deriving DecidableEq, Repr

/-- Modelled from the spec: the Sample Source capability of section 4.1
(the onGetData / onSeek / onLoop virtuals of SoundStream.hpp, whose
concrete bodies live in derived classes outside the reviewed tree).
getData returns the chunk sample count, the continue flag and the next
source state; seek relocates by a time offset in seconds; onLoop returns
the loop-restart sample offset, or none for the NoLoop sentinel. -/
structure SourceOps (σ : Type) where
  getData : σ → Nat × Bool × σ
  seek : ℚ → σ → σ
  onLoop : σ → Option Nat × σ

/-- Result of one buffer-slot fill attempt: the chunk to enqueue together
with its loopSeek marker (none when the slot is skipped), the stop request
flag, and the advanced source state. -/
structure FetchOut (σ : Type) where
  chunk : Option (Nat × Option Nat)
  requestStop : Bool
  src : σ
deriving Repr

/-- Engine state.  The field defaults are the member initializers of
SoundStream.hpp lines 340-351 (time is measured in seconds as a rational,
so milliseconds 10 is 10 / 1000).  The queue is the backend buffer queue,
front = oldest enqueued, each entry carrying its loopSeek marker; spawns
counts thread launches and violations counts launches not preceded by a
join, instrumenting the scheduling model of section 5. -/
structure Engine (σ : Type) where
  source : σ
  threadRunning : Bool := false
  threadStartState : Status := Status.Stopped
  isStreaming : Bool := false
  requestStop : Bool := false
  channelCount : Nat := 0
  sampleRate : Nat := 0
  loop : Bool := false
  samplesProcessed : ℚ := 0
  queue : List BufEntry := []
  backendState : Status := Status.Stopped
  processingInterval : ℚ := 10 / 1000
  spawns : Nat := 0
  violations : Nat := 0
deriving DecidableEq, Repr

/-- Modelled from the spec: getChannelCount (SoundStream.hpp line 112) is
a trivial accessor of the recorded channel count. -/
def getChannelCount {σ : Type} (e : Engine σ) : Nat := e.channelCount

/-- Modelled from the spec: getSampleRate (SoundStream.hpp line 123) is a
trivial accessor of the recorded sample rate. -/
def getSampleRate {σ : Type} (e : Engine σ) : Nat := e.sampleRate

/-- Modelled from the spec: getLoop (SoundStream.hpp line 181) is a
trivial accessor of the loop flag. -/
def getLoop {σ : Type} (e : Engine σ) : Bool := e.loop

/-- Modelled from the spec: setLoop (SoundStream.hpp line 171) sets the
loop flag with no further side effect. -/
def setLoop {σ : Type} (b : Bool) (e : Engine σ) : Engine σ :=
  { e with loop := b }

/-- Modelled from the spec, section 4.2 getStatus: the backend-observed
state reconciled with the intended target, so that a background thread
that is still streaming while the backend momentarily reports Stopped is
observed in its target state. -/
def getStatus {σ : Type} (e : Engine σ) : Status :=
  if e.backendState = Status.Stopped ∧ e.isStreaming = true then
    e.threadStartState
  else e.backendState

/-- Modelled from the spec, sections 4.2 and 4.3: getPlayingOffset divides
samplesProcessed by sampleRate times channelCount, short-circuiting to
zero when the engine was never destroyed or initialized (a zero rate or
channel count). -/
def getPlayingOffset {σ : Type} (e : Engine σ) : ℚ :=
  if e.sampleRate = 0 ∨ e.channelCount = 0 then 0
  else e.samplesProcessed / ((e.sampleRate : ℚ) * (e.channelCount : ℚ))

/-- Accountant step of section 4.3: a consumed buffer carrying a loopSeek
marker sets samplesProcessed to the marker; an unmarked one adds its
sample count. -/
def applyBuf (v : ℚ) (b : BufEntry) : ℚ :=
  match b.seek with
  | some s => (s : ℚ)
  | none => v + (b.sampleCount : ℚ)

/-- Modelled from the spec, section 4.2 step 4 and stop: the streaming
thread epilogue stops backend playback, clears the queue, resets
samplesProcessed to zero and exits (thread joined). -/
def finishStream {σ : Type} (e : Engine σ) : Engine σ :=
  { e with backendState := Status.Stopped, queue := [],
           samplesProcessed := 0, threadRunning := false,
           isStreaming := false, requestStop := false }

/-- Modelled from the spec, sections 4.1 and 4.2 step 1: fetch a chunk for
one buffer slot with up to BufferRetries additional attempts.  An
empty-but-continuing chunk is retried; when the retries are exhausted the
slot is skipped (chunk none) and, per section 4.1 and the SoundStream.hpp
onGetData contract (lines 219-223), the condition is treated as a stop
request.  A continue=false answer with looping enabled invokes onLoop and
attaches the returned sample offset as the loopSeek marker of the chunk
that crosses the boundary (a NoLoop answer is a hard stop); without
looping it is a stop request, enqueuing the final partial chunk if any. -/
def fetchAttempts {σ : Type} (ops : SourceOps σ) (L : Bool) :
    Option Nat → Nat → σ → FetchOut σ
  | _, 0, s => ⟨none, true, s⟩
  | marker, fuel + 1, s =>
    match ops.getData s with
    | (count, cont, s1) =>
      if cont = true then
        if count = 0 then fetchAttempts ops L marker fuel s1
        else ⟨some (count, marker), false, s1⟩
      else
        if L = true then
          match ops.onLoop s1 with
          | (none, s2) =>
            ⟨if count = 0 then none else some (count, marker), true, s2⟩
          | (some off, s2) =>
            if count = 0 then fetchAttempts ops L (some off) fuel s2
            else ⟨some (count, some off), false, s2⟩
        else ⟨if count = 0 then none else some (count, marker), true, s1⟩

/-- Modelled from the spec: fillAndPushBuffer (SoundStream.hpp line 293):
fill one slot via fetchAttempts and enqueue the chunk at the back of the
backend queue; a skipped slot is not enqueued and requests a stop.
Returns the stop request flag together with the new engine state. -/
def fillAndPushBuffer {σ : Type} (ops : SourceOps σ) (e : Engine σ) :
    Bool × Engine σ :=
  match (fetchAttempts ops e.loop none (BufferRetries + 1) e.source).chunk with
  | none => (true,
      { e with source :=
          (fetchAttempts ops e.loop none (BufferRetries + 1) e.source).src })
  | some c =>
      ((fetchAttempts ops e.loop none (BufferRetries + 1)
          e.source).requestStop,
       { e with queue := e.queue ++ [⟨c.1, c.2⟩],
                source :=
          (fetchAttempts ops e.loop none (BufferRetries + 1)
            e.source).src })

/-- Helper for fillQueue: fill up to n slots, stopping early once a stop
has been requested, threading the stop request flag. -/
def fillQueueGo {σ : Type} (ops : SourceOps σ) :
    Nat → Bool → Engine σ → Bool × Engine σ
  | 0, rs, e => (rs, e)
  | n + 1, rs, e =>
    if rs = true then (rs, e)
    else
      fillQueueGo ops n (fillAndPushBuffer ops e).1 (fillAndPushBuffer ops e).2

/-- Modelled from the spec: fillQueue (SoundStream.hpp line 304): fill all
BufferCount slots when playing starts and the queue is empty; slots after
a stop request are left unfilled for this cycle. -/
def fillQueue {σ : Type} (ops : SourceOps σ) (e : Engine σ) :
    Bool × Engine σ :=
  fillQueueGo ops BufferCount false e

/-- Modelled from the spec, section 5: spawning the streaming thread.  The
spawn counter is incremented, and a launch performed while the previous
thread is still alive (never supposed to happen) is recorded as a
violation. -/
def launchBegin {σ : Type} (startState : Status) (e : Engine σ) :
    Engine σ :=
  { e with threadRunning := true, isStreaming := true,
           threadStartState := startState,
           spawns := e.spawns + 1,
           violations := e.violations +
             (if e.threadRunning = true then 1 else 0) }

/-- Modelled from the spec, section 4.2 steps 1-2 and section 7: after the
initial queue fill, a playback start that produced no buffers and received
a stop request does not start (the engine remains Stopped); otherwise the
backend begins output in the requested initial state. -/
def launchFinish {σ : Type} (startState : Status) (p : Bool × Engine σ) :
    Engine σ :=
  if p.2.queue = [] ∧ p.1 = true then finishStream p.2
  else { p.2 with backendState := startState, requestStop := p.1 }

/-- Modelled from the spec: launchStreamingThread (SoundStream.hpp line
321): start the background thread in the given target state, fill the
queue, and begin backend output. -/
def launchStreamingThread {σ : Type} (ops : SourceOps σ)
    (startState : Status) (e : Engine σ) : Engine σ :=
  launchFinish startState (fillQueue ops (launchBegin startState e))

/-- Modelled from the spec, section 4.2 stop: effective from Playing or
Paused, it halts and joins the background thread, clears the queue, stops
backend playback and resets samplesProcessed to zero; it is a no-op when
already Stopped. -/
def stop {σ : Type} (e : Engine σ) : Engine σ :=
  if getStatus e = Status.Stopped then e else finishStream e

/-- Modelled from the spec, section 4.2 play: from Paused it resumes
backend output in place; from Playing it restarts from the beginning
(stop, re-seek the source to zero, relaunch); from Stopped it seeks the
source to zero, fills the queue and launches the thread in Playing target
state. -/
def play {σ : Type} (ops : SourceOps σ) (e : Engine σ) : Engine σ :=
  if getStatus e = Status.Paused then
    { e with threadStartState := Status.Playing,
             backendState := Status.Playing }
  else
    launchStreamingThread ops Status.Playing
      { stop e with source := ops.seek 0 (stop e).source }

/-- Modelled from the spec, section 4.2 pause: effective only from
Playing; pauses backend output without altering the queue. -/
def pause {σ : Type} (e : Engine σ) : Engine σ :=
  if getStatus e = Status.Playing then
    { e with threadStartState := Status.Paused,
             backendState := Status.Paused }
  else e

/-- Modelled from the spec, section 4.2 setPlayingOffset: a no-op when
Stopped; otherwise remember the current target state, stop the stream,
seek the source, reset samplesProcessed to the sample-count equivalent of
the offset at the current sample rate and channel count, and relaunch the
thread in the remembered state. -/
def setPlayingOffset {σ : Type} (ops : SourceOps σ) (t : ℚ)
    (e : Engine σ) : Engine σ :=
  if getStatus e = Status.Stopped then e
  else
    launchStreamingThread ops (getStatus e)
      { stop e with source := ops.seek t (stop e).source,
                    samplesProcessed :=
                      t * (e.sampleRate : ℚ) * (e.channelCount : ℚ) }

/-- One consumed backend buffer: pop the front of the queue and fold it
into samplesProcessed per the section 4.3 accountant. -/
def consumeFront {σ : Type} (e : Engine σ) (b : BufEntry)
    (rest : List BufEntry) : Engine σ :=
  { e with queue := rest, samplesProcessed := applyBuf e.samplesProcessed b }

/-- Refill the just-consumed slot and re-enqueue it, recording the
resulting stop request flag. -/
def refillSlot {σ : Type} (ops : SourceOps σ) (e : Engine σ) : Engine σ :=
  { (fillAndPushBuffer ops e).2 with
      requestStop := (fillAndPushBuffer ops e).1 }

/-- Modelled from the spec, section 4.2 step 3: one polling iteration of
the background streaming loop.  While streaming and the backend is
playing, a consumed buffer is folded into the accountant and its slot
refilled unless a stop has been requested; once the queue has drained
under a stop request the loop terminates and the state transitions to
Stopped. -/
def streamTick {σ : Type} (ops : SourceOps σ) (e : Engine σ) : Engine σ :=
  if e.isStreaming = false then e
  else if e.backendState ≠ Status.Playing then e
  else
    match e.queue with
    | [] => if e.requestStop = true then finishStream e else e
    | b :: rest =>
      if e.requestStop = true then consumeFront e b rest
      else refillSlot ops (consumeFront e b rest)

/-- Well-formedness: a Stopped engine has an empty backend queue, no live
background thread, and a zeroed position, per the PlaybackState invariant
of section 3. -/
abbrev WF {σ : Type} (e : Engine σ) : Prop :=
  getStatus e = Status.Stopped →
    e.queue = [] ∧ e.threadRunning = false ∧ e.isStreaming = false ∧
    e.samplesProcessed = 0

/-- All intermediate accountant values stay at or below the bound K as the
queued buffers are consumed in order, starting from value v. -/
def chainLe (K : ℚ) : ℚ → List BufEntry → Prop
  | v, [] => v ≤ K
  | v, b :: q => v ≤ K ∧ chainLe K (applyBuf v b) q

/-- The accountant value after consuming all queued buffers in order,
starting from value v. -/
def chainEnd : ℚ → List BufEntry → ℚ
  | v, [] => v
  | v, b :: q => chainEnd (applyBuf v b) q

/-- A concrete PCM source with total samples, a read chunk size, a custom
loop-restart sample offset and a current read position, realizing the
section 4.1 capability for a source of known finite content. -/
structure PcmSource where
  total : Nat
  chunkSize : Nat
  loopOff : Nat
  pos : Nat
deriving DecidableEq, Repr

/-- Capability instance for PcmSource: getData reads up to chunkSize
samples and continues while content remains; seek clamps to the valid
range; onLoop seeks to the custom loop offset and reports it. -/
def pcmOps : SourceOps PcmSource :=
  { getData := fun s =>
      (min s.chunkSize (s.total - s.pos),
       decide (s.pos + min s.chunkSize (s.total - s.pos) < s.total),
       { s with pos := s.pos + min s.chunkSize (s.total - s.pos) })
  , seek := fun t s => { s with pos := min s.total (Int.toNat ⌊t⌋) }
  , onLoop := fun s => (some s.loopOff, { s with pos := s.loopOff }) }

/-- Position-accounting invariant for an engine streaming a PcmSource:
every accountant value reached while draining the queue stays at or below
the source total; unless a stop is pending, the final accountant value is
at or below the source read position; and the read position, like the
loop offset, is at or below the total. -/
abbrev PcmInv (e : Engine PcmSource) : Prop :=
  chainLe (e.source.total : ℚ) e.samplesProcessed e.queue ∧
  (e.requestStop = false →
    chainEnd e.samplesProcessed e.queue ≤ (e.source.pos : ℚ)) ∧
  e.source.pos ≤ e.source.total ∧
  e.source.loopOff ≤ e.source.total

/-- A playing looping engine over a fresh eight-sample PCM source read
three samples at a time, with a custom loop restart at sample two. -/
def ePcm : Engine PcmSource :=
  { source := ⟨8, 3, 2, 0⟩, loop := true, channelCount := 1,
    sampleRate := 1, isStreaming := true,
    backendState := Status.Playing, threadStartState := Status.Playing }

/-- A playing looping engine whose front buffer carries a loopSeek marker
of two samples, five samples already accounted. -/
def ePcmMarked : Engine PcmSource :=
  { source := ⟨8, 3, 2, 6⟩, loop := true, channelCount := 1,
    sampleRate := 1, isStreaming := true, samplesProcessed := 5,
    queue := [⟨2, some 2⟩], backendState := Status.Playing,
    threadStartState := Status.Playing }

/-- A scripted source replaying a fixed list of (sampleCount, continue)
answers, used to drive the engine through specific scenarios. -/
structure ScriptSource where
  script : List (Nat × Bool)
deriving DecidableEq, Repr

/-- Capability instance for ScriptSource: getData pops the next scripted
answer (end of script reads as a stop); seek is ignored; onLoop reports
the NoLoop sentinel. -/
def scriptOps : SourceOps ScriptSource :=
  { getData := fun s =>
      match s.script with
      | [] => (0, false, s)
      | r :: rest => (r.1, r.2, ⟨rest⟩)
  , seek := fun _ s => s
  , onLoop := fun s => (none, s) }

/-- A stateless source that always reports end of data. -/
def unitOps : SourceOps Unit :=
  { getData := fun s => (0, false, s)
  , seek := fun _ s => s
  , onLoop := fun s => (none, s) }

/-- A stateless source that always produces four samples and continues. -/
def onesOps : SourceOps Unit :=
  { getData := fun s => (4, true, s)
  , seek := fun _ s => s
  , onLoop := fun s => (some 0, s) }

/-- The public control operations of section 6, as commands applied to the
engine state (tick is one background-loop iteration). -/
inductive SCmd where
  | play
  | pause
  | stop
  | seek (t : ℚ)
  | setLoop (b : Bool)
  | tick
deriving DecidableEq, Repr

/-- Apply one command to the engine. -/
def applyCmd {σ : Type} (ops : SourceOps σ) : SCmd → Engine σ → Engine σ
  | SCmd.play, e => play ops e
  | SCmd.pause, e => pause e
  | SCmd.stop, e => stop e
  | SCmd.seek t, e => setPlayingOffset ops t e
  | SCmd.setLoop b, e => setLoop b e
  | SCmd.tick, e => streamTick ops e

/-- Apply a sequence of commands left to right. -/
def applyCmds {σ : Type} (ops : SourceOps σ) (l : List SCmd)
    (e : Engine σ) : Engine σ :=
  l.foldl (fun acc c => applyCmd ops c acc) e

/-- A default-constructed stream: every field at its SoundStream.hpp
member initializer. -/
def freshStream : Engine Unit := { source := () }

/-- A concrete engine mid-playback: stereo at 4 samples per second, eight
samples already processed, one unmarked six-sample buffer queued, with a
stop already requested. -/
def ePlaying : Engine Unit :=
  { source := (), isStreaming := true, requestStop := true,
    channelCount := 2, sampleRate := 4, samplesProcessed := 8,
    queue := [⟨6, none⟩], backendState := Status.Playing,
    threadStartState := Status.Playing }

/-- A concrete initialized engine at rest: stereo at 4 samples per second,
Stopped with a clean queue. -/
def eStopped : Engine Unit :=
  { source := (), channelCount := 2, sampleRate := 4 }

/-- A concrete engine paused mid-playback: stereo at 4 samples per
second, five samples processed, one unmarked five-sample buffer queued. -/
def ePaused : Engine Unit :=
  { source := (), isStreaming := true, channelCount := 2, sampleRate := 4,
    samplesProcessed := 5, queue := [⟨5, none⟩],
    backendState := Status.Paused, threadStartState := Status.Paused }

/-- A concrete playing engine whose front buffer carries a loopSeek
marker of one sample. -/
def eMarked : Engine Unit :=
  { source := (), isStreaming := true, channelCount := 2, sampleRate := 4,
    samplesProcessed := 9, queue := [⟨3, some 1⟩],
    backendState := Status.Playing, threadStartState := Status.Playing }

/-- A concrete playing engine with an empty queue and no stop pending. -/
def eIdle : Engine Unit :=
  { source := (), isStreaming := true, channelCount := 2, sampleRate := 4,
    backendState := Status.Playing, threadStartState := Status.Playing }

/-- A script whose second buffer slot starves: slot zero receives four
samples, the next three fetches are empty-but-continuing, and the source
would then have continued with more data. -/
def starvingScript : ScriptSource :=
  ⟨[(4, true), (0, true), (0, true), (0, true), (4, true), (4, true)]⟩

/-- A stopped mono engine about to play the starving script. -/
def eStarve : Engine ScriptSource :=
  { source := starvingScript, channelCount := 1, sampleRate := 1 }

/-- A fresh engine whose source starves immediately: three consecutive
empty-but-continuing answers. -/
def eStarve2 : Engine ScriptSource :=
  { source := ⟨[(0, true), (0, true), (0, true)]⟩ }

/-- A playing engine whose queue has fully drained under a pending stop
request. -/
def eDrained : Engine ScriptSource :=
  { source := ⟨[]⟩, isStreaming := true, requestStop := true,
    channelCount := 1, sampleRate := 1,
    backendState := Status.Playing, threadStartState := Status.Playing }

theorem getStatus_finishStream {σ : Type} (e : Engine σ) :
    getStatus (finishStream e) = Status.Stopped := by
  simp [getStatus, finishStream]

theorem wf_finishStream {σ : Type} (e : Engine σ) : WF (finishStream e) := by
  intro _
  simp [finishStream]

theorem backendState_of_getStatus_stopped {σ : Type} {e : Engine σ}
    (h : getStatus e = Status.Stopped) :
    e.backendState = Status.Stopped := by
  unfold getStatus at h
  split at h
  · next hc => exact hc.1
  · exact h

theorem stop_eq_of_stopped {σ : Type} {e : Engine σ}
    (h : getStatus e = Status.Stopped) : stop e = e := by
  simp [stop, h]

theorem stop_eq_finishStream {σ : Type} {e : Engine σ}
    (h : ¬ getStatus e = Status.Stopped) : stop e = finishStream e := by
  simp [stop, h]

theorem getStatus_stop {σ : Type} (e : Engine σ) :
    getStatus (stop e) = Status.Stopped := by
  by_cases h : getStatus e = Status.Stopped
  · rw [stop_eq_of_stopped h]; exact h
  · rw [stop_eq_finishStream h]; exact getStatus_finishStream e

theorem stop_idem {σ : Type} (e : Engine σ) : stop (stop e) = stop e :=
  stop_eq_of_stopped (getStatus_stop e)

theorem fillAndPush_snd_eq {σ : Type} (ops : SourceOps σ) (e : Engine σ) :
    ∃ t s1, (fillAndPushBuffer ops e).2 =
      { e with queue := e.queue ++ t, source := s1 } := by
  rcases hchk : (fetchAttempts ops e.loop none (BufferRetries + 1)
      e.source).chunk with _ | c
  · exact ⟨[],
      (fetchAttempts ops e.loop none (BufferRetries + 1) e.source).src,
      by simp [fillAndPushBuffer, hchk]⟩
  · exact ⟨[⟨c.1, c.2⟩],
      (fetchAttempts ops e.loop none (BufferRetries + 1) e.source).src,
      by simp [fillAndPushBuffer, hchk]⟩

theorem fillQueueGo_snd_eq {σ : Type} (ops : SourceOps σ) :
    ∀ (n : Nat) (rs : Bool) (e : Engine σ),
      ∃ t s1, (fillQueueGo ops n rs e).2 =
        { e with queue := e.queue ++ t, source := s1 } := by
  intro n
  induction n with
  | zero => intro rs e; exact ⟨[], e.source, by simp [fillQueueGo]⟩
  | succ n ih =>
    intro rs e
    by_cases hrs : rs = true
    · exact ⟨[], e.source, by simp [fillQueueGo, hrs]⟩
    · obtain ⟨t0, s0, h0⟩ := fillAndPush_snd_eq ops e
      obtain ⟨t1, s1, h1⟩ := ih (fillAndPushBuffer ops e).1
        (fillAndPushBuffer ops e).2
      refine ⟨t0 ++ t1, s1, ?_⟩
      simp only [fillQueueGo, hrs, if_false, Bool.false_eq_true]
      rw [h1, h0]
      simp [List.append_assoc]

theorem streamTick_consume_fields {σ : Type} (ops : SourceOps σ)
    (e : Engine σ) (b : BufEntry) (rest : List BufEntry)
    (hs : e.isStreaming = true) (hb : e.backendState = Status.Playing)
    (hq : e.queue = b :: rest) :
    (streamTick ops e).samplesProcessed = applyBuf e.samplesProcessed b ∧
    (streamTick ops e).sampleRate = e.sampleRate ∧
    (streamTick ops e).channelCount = e.channelCount ∧
    (∃ t, (streamTick ops e).queue = rest ++ t) ∧
    (streamTick ops e).isStreaming = true ∧
    (streamTick ops e).backendState = Status.Playing ∧
    (streamTick ops e).spawns = e.spawns ∧
    (streamTick ops e).violations = e.violations := by
  by_cases hrs : e.requestStop = true
  · refine ⟨?_, ?_, ?_, ⟨[], ?_⟩, ?_, ?_, ?_, ?_⟩ <;>
      simp [streamTick, hs, hb, hq, hrs, consumeFront]
  · obtain ⟨t0, s0, h0⟩ := fillAndPush_snd_eq ops (consumeFront e b rest)
    have hrs2 : e.requestStop = false := by simpa using hrs
    simp only [consumeFront, hs, hb, hrs2] at h0
    refine ⟨?_, ?_, ?_, ⟨t0, ?_⟩, ?_, ?_, ?_, ?_⟩ <;>
      simp [streamTick, hs, hb, hq, hrs, hrs2, refillSlot, consumeFront, h0]

/-- Claim C9: a default-constructed SoundStream has loop false,
samplesProcessed zero, channelCount zero, sampleRate zero, thread start
state Stopped and a 10 ms processing interval, so getLoop is false,
getChannelCount and getSampleRate are zero and getPlayingOffset is zero
on a fresh stream. -/
theorem c9_default_state :
    freshStream.loop = false ∧ freshStream.samplesProcessed = 0 ∧
    freshStream.channelCount = 0 ∧ freshStream.sampleRate = 0 ∧
    freshStream.threadStartState = Status.Stopped ∧
    freshStream.processingInterval = 10 / 1000 ∧
    getLoop freshStream = false ∧ getChannelCount freshStream = 0 ∧
    getSampleRate freshStream = 0 ∧ getPlayingOffset freshStream = 0 := by
  refine ⟨rfl, rfl, rfl, rfl, rfl, rfl, rfl, rfl, rfl, ?_⟩
  simp [getPlayingOffset, freshStream]

/-- Claim C10: the Vector2 scalar divisions and the componentwise
division assert a non-zero divisor; under that precondition the assertion
branch is unreachable and each returns exactly the componentwise
quotient. -/
theorem c10_vector2_division {α : Type} [Zero α] [Div α] [DecidableEq α]
    (v r : Vector2 α) (c : α) :
    (r.x ≠ 0 → r.y ≠ 0 →
      v.cwiseDiv r = some ⟨v.x / r.x, v.y / r.y⟩) ∧
    (c ≠ 0 → v.divScalar c = some ⟨v.x / c, v.y / c⟩) ∧
    (c ≠ 0 → v.divAssign c = some ⟨v.x / c, v.y / c⟩) := by
  refine ⟨fun hx hy => ?_, fun hc => ?_, fun hc => ?_⟩
  · simp [Vector2.cwiseDiv, hx, hy]
  · simp [Vector2.divScalar, hc]
  · simp [Vector2.divAssign, hc]

/-- Witness for C10 at integer vectors with divisor components 3. -/
theorem c10_vector2_division_witness :
    (3 : ℤ) ≠ 0 ∧
    (Vector2.mk (6 : ℤ) 9).cwiseDiv ⟨3, 3⟩ = some ⟨6 / 3, 9 / 3⟩ ∧
    (Vector2.mk (6 : ℤ) 9).divScalar 3 = some ⟨6 / 3, 9 / 3⟩ ∧
    (Vector2.mk (6 : ℤ) 9).divAssign 3 = some ⟨6 / 3, 9 / 3⟩ :=
  ⟨by decide,
   (c10_vector2_division ⟨6, 9⟩ ⟨3, 3⟩ 3).1 (by decide) (by decide),
   (c10_vector2_division ⟨6, 9⟩ ⟨3, 3⟩ 3).2.1 (by decide),
   (c10_vector2_division ⟨6, 9⟩ ⟨3, 3⟩ 3).2.2 (by decide)⟩

/-- Claim C1: getPlayingOffset returns samplesProcessed divided by
sampleRate times channelCount, returns zero instead of faulting when the
engine was never destroyed or initialized (sampleRate zero), and each
consumed unmarked buffer contributes its sampleCount over channelCount
frames, i.e. advances the offset by that frame count over sampleRate. -/
theorem c1_getPlayingOffset_formula {σ : Type} (ops : SourceOps σ)
    (e : Engine σ) (count : Nat) (rest : List BufEntry) :
    (e.sampleRate = 0 → getPlayingOffset e = 0) ∧
    (e.sampleRate ≠ 0 → e.channelCount ≠ 0 →
      getPlayingOffset e =
        e.samplesProcessed /
          ((e.sampleRate : ℚ) * (e.channelCount : ℚ))) ∧
    (e.isStreaming = true → e.backendState = Status.Playing →
      e.queue = ⟨count, none⟩ :: rest →
      e.sampleRate ≠ 0 → e.channelCount ≠ 0 →
      getPlayingOffset (streamTick ops e) =
        getPlayingOffset e +
          ((count : ℚ) / (e.channelCount : ℚ)) / (e.sampleRate : ℚ)) := by
  refine ⟨fun h0 => by simp [getPlayingOffset, h0],
          fun hr hc => by simp [getPlayingOffset, hr, hc],
          fun hs hb hq hr hc => ?_⟩
  obtain ⟨hsp, hrate, hch, _, _, _, _, _⟩ :=
    streamTick_consume_fields ops e _ _ hs hb hq
  have hr2 : (e.sampleRate : ℚ) ≠ 0 := Nat.cast_ne_zero.mpr hr
  have hc2 : (e.channelCount : ℚ) ≠ 0 := Nat.cast_ne_zero.mpr hc
  simp only [getPlayingOffset, hsp, hrate, hch, applyBuf]
  simp only [hr, hc, or_self, if_false, false_or]
  field_simp
  ring

/-- Witness for C1 on the concrete mid-playback engine. -/
theorem c1_getPlayingOffset_formula_witness :
    getPlayingOffset ePlaying = 8 / ((4 : ℚ) * 2) ∧
    getPlayingOffset (streamTick unitOps ePlaying) =
      getPlayingOffset ePlaying + ((6 : ℚ) / 2) / 4 ∧
    getPlayingOffset freshStream = 0 :=
  ⟨(c1_getPlayingOffset_formula unitOps ePlaying 6 []).2.1
     (by decide) (by decide),
   (c1_getPlayingOffset_formula unitOps ePlaying 6 []).2.2
     (by decide) (by decide) (by decide) (by decide) (by decide),
   (c1_getPlayingOffset_formula unitOps freshStream 0 []).1 (by decide)⟩

/-- Claim C4: stop always leaves the engine Stopped and is idempotent; on
a well-formed engine it clears the backend queue, stops backend playback,
leaves the background thread joined and resets samplesProcessed to zero,
and it changes nothing when invoked while already Stopped. -/
theorem c4_stop_semantics {σ : Type} (e : Engine σ) :
    getStatus (stop e) = Status.Stopped ∧
    stop (stop e) = stop e ∧
    (WF e →
      (stop e).queue = [] ∧ (stop e).threadRunning = false ∧
      (stop e).isStreaming = false ∧
      (stop e).backendState = Status.Stopped ∧
      (stop e).samplesProcessed = 0 ∧
      (getStatus e = Status.Stopped → stop e = e)) := by
  refine ⟨getStatus_stop e, stop_idem e, fun hwf => ?_⟩
  by_cases h : getStatus e = Status.Stopped
  · obtain ⟨hq, ht, hstr, hsp⟩ := hwf h
    rw [stop_eq_of_stopped h]
    exact ⟨hq, ht, hstr, backendState_of_getStatus_stopped h, hsp,
      fun _ => rfl⟩
  · rw [stop_eq_finishStream h]
    exact ⟨rfl, rfl, rfl, rfl, rfl, fun h2 => absurd h2 h⟩

/-- Witness for C4 on the mid-playback engine and on a stopped engine. -/
theorem c4_stop_semantics_witness :
    getStatus (stop ePlaying) = Status.Stopped ∧
    (stop ePlaying).queue = [] ∧
    (stop ePlaying).samplesProcessed = 0 ∧
    stop eStopped = eStopped :=
  ⟨(c4_stop_semantics ePlaying).1,
   ((c4_stop_semantics ePlaying).2.2 (by decide)).1,
   ((c4_stop_semantics ePlaying).2.2 (by decide)).2.2.2.2.1,
   ((c4_stop_semantics eStopped).2.2 (by decide)).2.2.2.2.2 (by decide)⟩

theorem fillQueue_queue_ne_nil {σ : Type} (ops : SourceOps σ)
    (e : Engine σ)
    (hc : (fetchAttempts ops e.loop none (BufferRetries + 1)
            e.source).chunk ≠ none) :
    (fillQueue ops e).2.queue ≠ [] := by
  have h3 : BufferCount = 2 + 1 := rfl
  have hstep : fillQueueGo ops (2 + 1) false e =
      fillQueueGo ops 2 (fillAndPushBuffer ops e).1
        (fillAndPushBuffer ops e).2 := rfl
  obtain ⟨t1, s1, h1⟩ := fillQueueGo_snd_eq ops 2
    (fillAndPushBuffer ops e).1 (fillAndPushBuffer ops e).2
  rw [fillQueue, h3, hstep, h1]
  rcases hchk : (fetchAttempts ops e.loop none (BufferRetries + 1)
      e.source).chunk with _ | c
  · exact absurd hchk hc
  · have h2 : (fillAndPushBuffer ops e).2.queue =
        e.queue ++ [⟨c.1, c.2⟩] := by
      simp [fillAndPushBuffer, hchk]
    simp [h2]

theorem launchStreamingThread_fields {σ : Type} (ops : SourceOps σ)
    (st : Status) (e : Engine σ) (hst : st ≠ Status.Stopped)
    (hc : (fetchAttempts ops e.loop none (BufferRetries + 1)
            e.source).chunk ≠ none) :
    getStatus (launchStreamingThread ops st e) = st ∧
    (launchStreamingThread ops st e).samplesProcessed =
      e.samplesProcessed ∧
    (launchStreamingThread ops st e).sampleRate = e.sampleRate ∧
    (launchStreamingThread ops st e).channelCount = e.channelCount := by
  have hcb : (fetchAttempts ops (launchBegin st e).loop none
      (BufferRetries + 1) (launchBegin st e).source).chunk ≠ none := hc
  have hne := fillQueue_queue_ne_nil ops (launchBegin st e) hcb
  have hcond : ¬ ((fillQueue ops (launchBegin st e)).2.queue = [] ∧
      (fillQueue ops (launchBegin st e)).1 = true) := fun hx => hne hx.1
  obtain ⟨t1, s1, h1⟩ := fillQueueGo_snd_eq ops BufferCount false
    (launchBegin st e)
  rw [launchStreamingThread, launchFinish, if_neg hcond]
  refine ⟨?_, ?_, ?_, ?_⟩
  · simp [getStatus, hst]
  · rw [fillQueue, h1]; simp [launchBegin]
  · rw [fillQueue, h1]; simp [launchBegin]
  · rw [fillQueue, h1]; simp [launchBegin]

/-- Claim C6: setPlayingOffset is a no-op when Stopped; otherwise it
restarts the stream at the requested offset with the playback status
restored to what it was, samplesProcessed reset to the sample-count
equivalent of the offset, and getPlayingOffset equal to the requested
offset (hence within one buffer of it), provided the source delivers a
chunk at the new position. -/
theorem c6_setPlayingOffset {σ : Type} (ops : SourceOps σ) (t : ℚ)
    (e : Engine σ) :
    (getStatus e = Status.Stopped → setPlayingOffset ops t e = e) ∧
    (getStatus e ≠ Status.Stopped →
      (fetchAttempts ops e.loop none (BufferRetries + 1)
        (ops.seek t e.source)).chunk ≠ none →
      getStatus (setPlayingOffset ops t e) = getStatus e ∧
      (setPlayingOffset ops t e).samplesProcessed =
        t * (e.sampleRate : ℚ) * (e.channelCount : ℚ) ∧
      (e.sampleRate ≠ 0 → e.channelCount ≠ 0 →
        getPlayingOffset (setPlayingOffset ops t e) = t)) := by
  constructor
  · intro h; simp [setPlayingOffset, h]
  · intro h hc
    rw [setPlayingOffset, if_neg h, stop_eq_finishStream h]
    obtain ⟨hst2, hsp2, hr2, hch2⟩ := launchStreamingThread_fields ops
      (getStatus e)
      { finishStream e with
          source := ops.seek t (finishStream e).source,
          samplesProcessed :=
            t * (e.sampleRate : ℚ) * (e.channelCount : ℚ) }
      h hc
    refine ⟨hst2, hsp2, fun hr hcc => ?_⟩
    have hr3 : ((e.sampleRate : ℚ)) ≠ 0 := Nat.cast_ne_zero.mpr hr
    have hc3 : ((e.channelCount : ℚ)) ≠ 0 := Nat.cast_ne_zero.mpr hcc
    rw [getPlayingOffset, hr2, hch2, hsp2]
    simp [finishStream, hr, hcc]
    field_simp
    ring

/-- Witness for C6: seeking a paused engine to half a second keeps it
Paused and reports exactly that offset; seeking a stopped engine changes
nothing. -/
theorem c6_setPlayingOffset_witness :
    getStatus (setPlayingOffset onesOps (1 / 2) ePaused) =
      getStatus ePaused ∧
    (setPlayingOffset onesOps (1 / 2) ePaused).samplesProcessed =
      (1 / 2 : ℚ) * 4 * 2 ∧
    getPlayingOffset (setPlayingOffset onesOps (1 / 2) ePaused) = 1 / 2 ∧
    setPlayingOffset onesOps (1 / 2) eStopped = eStopped :=
  ⟨((c6_setPlayingOffset onesOps (1 / 2) ePaused).2
      (by decide) (by decide)).1,
   ((c6_setPlayingOffset onesOps (1 / 2) ePaused).2
      (by decide) (by decide)).2.1,
   ((c6_setPlayingOffset onesOps (1 / 2) ePaused).2
      (by decide) (by decide)).2.2 (by decide) (by decide),
   (c6_setPlayingOffset onesOps (1 / 2) eStopped).1 (by decide)⟩

/-- Claim C5: when the source reports continue false with zero samples
produced on the first fill of a play from Stopped (looping disabled),
playback does not start: the engine remains Stopped with no queued
buffers and no streaming thread. -/
theorem c5_failed_play_stays_stopped {σ : Type} (ops : SourceOps σ)
    (e : Engine σ) (s1 : σ)
    (hwf : WF e) (hst : getStatus e = Status.Stopped)
    (hl : e.loop = false)
    (hd : ops.getData (ops.seek 0 e.source) = (0, false, s1)) :
    getStatus (play ops e) = Status.Stopped ∧
    (play ops e).isStreaming = false ∧
    (play ops e).threadRunning = false ∧
    (play ops e).queue = [] := by
  obtain ⟨hq, ht, hstr, hsp⟩ := hwf hst
  have hp : ¬ getStatus e = Status.Paused := by rw [hst]; decide
  rw [play, if_neg hp, stop_eq_of_stopped hst]
  rw [launchStreamingThread, fillQueue]
  simp only [BufferCount, BufferRetries, fillQueueGo, fillAndPushBuffer,
    fetchAttempts, launchBegin, launchFinish, hl, hd, hq, ht, hstr]
  simp [getStatus, finishStream]

/-- Witness for C5: a play on a stopped engine whose source immediately
reports end of data leaves the engine Stopped. -/
theorem c5_failed_play_stays_stopped_witness :
    getStatus (play unitOps eStopped) = Status.Stopped ∧
    (play unitOps eStopped).isStreaming = false ∧
    (play unitOps eStopped).threadRunning = false ∧
    (play unitOps eStopped).queue = [] :=
  c5_failed_play_stays_stopped unitOps eStopped ()
    (by decide) (by decide) (by decide) (by decide)

/-- Claim C7: buffers are enqueued at the back of the backend queue in
fill order and consumed from the front in that order; across a streaming
loop iteration samplesProcessed never decreases when the consumed buffer
is unmarked (and is untouched when nothing was consumed), the only
in-loop decrease being the application of a loopSeek marker, which sets
it to the marker offset. -/
theorem c7_order_and_monotonicity {σ : Type} (ops : SourceOps σ)
    (e : Engine σ) :
    (∃ t, (fillAndPushBuffer ops e).2.queue = e.queue ++ t) ∧
    (∀ b rest, e.isStreaming = true →
      e.backendState = Status.Playing → e.queue = b :: rest →
      ∃ t, (streamTick ops e).queue = rest ++ t) ∧
    (∀ count rest, e.isStreaming = true →
      e.backendState = Status.Playing →
      e.queue = ⟨count, none⟩ :: rest →
      e.samplesProcessed ≤ (streamTick ops e).samplesProcessed) ∧
    (∀ S count rest, e.isStreaming = true →
      e.backendState = Status.Playing →
      e.queue = ⟨count, some S⟩ :: rest →
      (streamTick ops e).samplesProcessed = S) ∧
    (e.isStreaming = true → e.backendState = Status.Playing →
      e.queue = [] → e.requestStop = false →
      (streamTick ops e).samplesProcessed = e.samplesProcessed) := by
  refine ⟨?_, ?_, ?_, ?_, ?_⟩
  · obtain ⟨t, s, h⟩ := fillAndPush_snd_eq ops e
    exact ⟨t, by rw [h]⟩
  · intro b rest hs hb hq
    exact (streamTick_consume_fields ops e b rest hs hb hq).2.2.2.1
  · intro count rest hs hb hq
    have h1 :=
      (streamTick_consume_fields ops e ⟨count, none⟩ rest hs hb hq).1
    rw [h1, applyBuf]
    exact le_add_of_nonneg_right (Nat.cast_nonneg count)
  · intro S count rest hs hb hq
    have h1 :=
      (streamTick_consume_fields ops e ⟨count, some S⟩ rest hs hb hq).1
    rw [h1, applyBuf]
  · intro hs hb hq hrs
    simp [streamTick, hs, hb, hq, hrs]

/-- Witness for C7 on concrete playing engines. -/
theorem c7_order_and_monotonicity_witness :
    (∃ t, (fillAndPushBuffer onesOps ePlaying).2.queue =
      ePlaying.queue ++ t) ∧
    (∃ t, (streamTick onesOps ePlaying).queue = [] ++ t) ∧
    ePlaying.samplesProcessed ≤
      (streamTick onesOps ePlaying).samplesProcessed ∧
    (streamTick onesOps eMarked).samplesProcessed = 1 ∧
    (streamTick onesOps eIdle).samplesProcessed =
      eIdle.samplesProcessed :=
  ⟨(c7_order_and_monotonicity onesOps ePlaying).1,
   (c7_order_and_monotonicity onesOps ePlaying).2.1 ⟨6, none⟩ []
     (by decide) (by decide) (by decide),
   (c7_order_and_monotonicity onesOps ePlaying).2.2.1 6 []
     (by decide) (by decide) (by decide),
   (c7_order_and_monotonicity onesOps eMarked).2.2.2.1 1 3 []
     (by decide) (by decide) (by decide),
   (c7_order_and_monotonicity onesOps eIdle).2.2.2.2
     (by decide) (by decide) (by decide) (by decide)⟩

/-- Counterexample to claim C3 as stated: with the starving script only
the second buffer slot starves (slot zero was filled and the source still
held two continuing four-sample chunks), yet after the queued buffer
drains the whole stream stops rather than continuing with fewer active
buffers. -/
theorem c3_counterexample_single_slot_starvation :
    getStatus ((streamTick scriptOps)^[2] (play scriptOps eStarve)) =
      Status.Stopped ∧
    ((streamTick scriptOps)^[2] (play scriptOps eStarve)).source.script =
      [(4, true), (4, true)] := by
  decide

/-- Claim C3 as amended: a slot whose fetch returns empty-but-continuing
chunks on the initial attempt and on both BufferRetries retries is
skipped (nothing is enqueued for it), but this raises a stop request as
if the Source had requested the stop, so streaming does not continue
with fewer active buffers: once the already-queued buffers drain the
stream transitions to Stopped. -/
theorem c3_starved_slot_skipped_then_stop {σ : Type} (ops : SourceOps σ)
    (e : Engine σ) (s1 s2 s3 : σ)
    (h1 : ops.getData e.source = (0, true, s1))
    (h2 : ops.getData s1 = (0, true, s2))
    (h3 : ops.getData s2 = (0, true, s3)) :
    (fillAndPushBuffer ops e).1 = true ∧
    (fillAndPushBuffer ops e).2.queue = e.queue ∧
    (fillAndPushBuffer ops e).2.source = s3 ∧
    (∀ e2 : Engine σ, e2.isStreaming = true →
      e2.backendState = Status.Playing → e2.queue = [] →
      e2.requestStop = true →
      getStatus (streamTick ops e2) = Status.Stopped) := by
  have hf : fetchAttempts ops e.loop none (BufferRetries + 1) e.source =
      ⟨none, true, s3⟩ := by
    simp [fetchAttempts, BufferRetries, h1, h2, h3]
  refine ⟨?_, ?_, ?_, ?_⟩
  · simp [fillAndPushBuffer, hf]
  · simp [fillAndPushBuffer, hf]
  · simp [fillAndPushBuffer, hf]
  · intro e2 hs hb hq hrs
    simp [streamTick, hs, hb, hq, hrs, getStatus, finishStream]

/-- Witness for the amended C3: a source answering three consecutive
empty-but-continuing chunks makes the fill skip the slot, keep the queue
unchanged and request a stop, and a drained queue under a stop request
stops the stream. -/
theorem c3_starved_slot_skipped_then_stop_witness :
    (fillAndPushBuffer scriptOps eStarve2).1 = true ∧
    (fillAndPushBuffer scriptOps eStarve2).2.queue = eStarve2.queue ∧
    getStatus (streamTick scriptOps eDrained) = Status.Stopped :=
  ⟨(c3_starved_slot_skipped_then_stop scriptOps eStarve2
      ⟨[(0, true), (0, true)]⟩ ⟨[(0, true)]⟩ ⟨[]⟩
      (by decide) (by decide) (by decide)).1,
   (c3_starved_slot_skipped_then_stop scriptOps eStarve2
      ⟨[(0, true), (0, true)]⟩ ⟨[(0, true)]⟩ ⟨[]⟩
      (by decide) (by decide) (by decide)).2.1,
   (c3_starved_slot_skipped_then_stop scriptOps eStarve2
      ⟨[(0, true), (0, true)]⟩ ⟨[(0, true)]⟩ ⟨[]⟩
      (by decide) (by decide) (by decide)).2.2.2 eDrained
      (by decide) (by decide) (by decide) (by decide)⟩

theorem streamTick_cases {σ : Type} (ops : SourceOps σ) (e : Engine σ) :
    streamTick ops e = e ∨ streamTick ops e = finishStream e ∨
    (∃ b rest, e.queue = b :: rest ∧ e.requestStop = true ∧
      streamTick ops e = consumeFront e b rest) ∨
    (∃ b rest, e.queue = b :: rest ∧ e.requestStop = false ∧
      streamTick ops e = refillSlot ops (consumeFront e b rest)) := by
  by_cases h1 : e.isStreaming = false
  · left; simp [streamTick, h1]
  · by_cases h2 : e.backendState ≠ Status.Playing
    · left; simp [streamTick, h1, h2]
    · rcases hq : e.queue with _ | ⟨b, rest⟩
      · by_cases h3 : e.requestStop = true
        · right; left; simp [streamTick, h1, h2, hq, h3]
        · left; simp [streamTick, h1, h2, hq, h3]
      · by_cases h3 : e.requestStop = true
        · exact Or.inr (Or.inr (Or.inl
            ⟨b, rest, rfl, h3, by simp [streamTick, h1, h2, hq, h3]⟩))
        · exact Or.inr (Or.inr (Or.inr
            ⟨b, rest, rfl, by simpa using h3,
              by simp [streamTick, h1, h2, hq, h3]⟩))

theorem refillSlot_fields {σ : Type} (ops : SourceOps σ) (e : Engine σ) :
    (refillSlot ops e).spawns = e.spawns ∧
    (refillSlot ops e).violations = e.violations ∧
    (refillSlot ops e).isStreaming = e.isStreaming ∧
    (refillSlot ops e).backendState = e.backendState ∧
    (refillSlot ops e).threadStartState = e.threadStartState ∧
    (refillSlot ops e).threadRunning = e.threadRunning := by
  obtain ⟨t, s, h⟩ := fillAndPush_snd_eq ops e
  refine ⟨?_, ?_, ?_, ?_, ?_, ?_⟩ <;> simp [refillSlot, h]

theorem getStatus_congr {σ τ : Type} (e : Engine σ) (f : Engine τ)
    (h1 : f.backendState = e.backendState)
    (h2 : f.isStreaming = e.isStreaming)
    (h3 : f.threadStartState = e.threadStartState) :
    getStatus f = getStatus e := by
  simp [getStatus, h1, h2, h3]

theorem streamTick_wf {σ : Type} (ops : SourceOps σ) (e : Engine σ)
    (hwf : WF e) : WF (streamTick ops e) := by
  rcases streamTick_cases ops e with h | h | ⟨b, rest, hq, hrs, h⟩ |
    ⟨b, rest, hq, hrs, h⟩ <;> rw [h]
  · exact hwf
  · exact wf_finishStream e
  · intro hstop
    exfalso
    have hse : getStatus e = Status.Stopped := by
      rw [← getStatus_congr e (consumeFront e b rest) rfl rfl rfl]
      exact hstop
    have hq2 := (hwf hse).1
    rw [hq] at hq2
    simp at hq2
  · intro hstop
    exfalso
    obtain ⟨_, _, hstr, hbs, hts, _⟩ :=
      refillSlot_fields ops (consumeFront e b rest)
    have hse : getStatus e = Status.Stopped := by
      rw [← getStatus_congr e (refillSlot ops (consumeFront e b rest))
        hbs hstr hts]
      exact hstop
    have hq2 := (hwf hse).1
    rw [hq] at hq2
    simp at hq2

theorem streamTick_spawns_violations {σ : Type} (ops : SourceOps σ)
    (e : Engine σ) :
    (streamTick ops e).spawns = e.spawns ∧
    (streamTick ops e).violations = e.violations := by
  rcases streamTick_cases ops e with h | h | ⟨b, rest, hq, hrs, h⟩ |
    ⟨b, rest, hq, hrs, h⟩ <;> rw [h]
  · exact ⟨rfl, rfl⟩
  · exact ⟨rfl, rfl⟩
  · exact ⟨rfl, rfl⟩
  · obtain ⟨h1, h2, _⟩ := refillSlot_fields ops (consumeFront e b rest)
    exact ⟨h1, h2⟩

theorem stop_threadRunning {σ : Type} (e : Engine σ) (hwf : WF e) :
    (stop e).threadRunning = false := by
  by_cases h : getStatus e = Status.Stopped
  · rw [stop_eq_of_stopped h]; exact (hwf h).2.1
  · rw [stop_eq_finishStream h]; rfl

theorem wf_stop {σ : Type} (e : Engine σ) (hwf : WF e) : WF (stop e) := by
  by_cases h : getStatus e = Status.Stopped
  · rw [stop_eq_of_stopped h]; exact hwf
  · rw [stop_eq_finishStream h]; exact wf_finishStream e

theorem wf_launchFinish {σ : Type} (st : Status)
    (hst : st ≠ Status.Stopped) (p : Bool × Engine σ) :
    WF (launchFinish st p) := by
  unfold launchFinish
  split
  · exact wf_finishStream _
  · intro hstop
    exact absurd (backendState_of_getStatus_stopped hstop) hst

theorem launch_violations {σ : Type} (ops : SourceOps σ) (st : Status)
    (e : Engine σ) (h : e.threadRunning = false) :
    (launchStreamingThread ops st e).violations = e.violations := by
  obtain ⟨t1, s1, h1⟩ := fillQueueGo_snd_eq ops BufferCount false
    (launchBegin st e)
  have h2 : (fillQueue ops (launchBegin st e)).2.violations =
      e.violations := by
    rw [fillQueue, h1]; simp [launchBegin, h]
  rw [launchStreamingThread, launchFinish]
  split
  · simp [finishStream, h2]
  · simpa using h2

theorem launch_spawns {σ : Type} (ops : SourceOps σ) (st : Status)
    (e : Engine σ) :
    (launchStreamingThread ops st e).spawns = e.spawns + 1 := by
  obtain ⟨t1, s1, h1⟩ := fillQueueGo_snd_eq ops BufferCount false
    (launchBegin st e)
  have h2 : (fillQueue ops (launchBegin st e)).2.spawns =
      e.spawns + 1 := by
    rw [fillQueue, h1]; simp [launchBegin]
  rw [launchStreamingThread, launchFinish]
  split
  · simp [finishStream, h2]
  · simpa using h2

theorem applyCmd_violations {σ : Type} (ops : SourceOps σ) (c : SCmd)
    (e : Engine σ) (hwf : WF e) :
    (applyCmd ops c e).violations = e.violations := by
  cases c with
  | play =>
    by_cases hp : getStatus e = Status.Paused
    · simp [applyCmd, play, hp]
    · have ht : ({ stop e with
          source := ops.seek 0 (stop e).source } : Engine σ).threadRunning
          = false := stop_threadRunning e hwf
      simp only [applyCmd, play, hp, if_false]
      rw [launch_violations ops Status.Playing _ ht]
      by_cases h : getStatus e = Status.Stopped
      · rw [stop_eq_of_stopped h]
      · rw [stop_eq_finishStream h]; rfl
  | pause =>
    by_cases hp : getStatus e = Status.Playing <;> simp [applyCmd, pause, hp]
  | stop =>
    by_cases h : getStatus e = Status.Stopped
    · simp [applyCmd, stop_eq_of_stopped h]
    · simp [applyCmd, stop_eq_finishStream h, finishStream]
  | seek t =>
    by_cases h : getStatus e = Status.Stopped
    · simp [applyCmd, setPlayingOffset, h]
    · have ht : ({ stop e with
          source := ops.seek t (stop e).source,
          samplesProcessed := t * (e.sampleRate : ℚ) *
            (e.channelCount : ℚ) } : Engine σ).threadRunning = false :=
        stop_threadRunning e hwf
      simp only [applyCmd, setPlayingOffset, h, if_false]
      rw [launch_violations ops (getStatus e) _ ht]
      rw [stop_eq_finishStream h]; rfl
  | setLoop b => simp [applyCmd, setLoop]
  | tick => exact (streamTick_spawns_violations ops e).2

theorem applyCmd_wf {σ : Type} (ops : SourceOps σ) (c : SCmd)
    (e : Engine σ) (hwf : WF e) : WF (applyCmd ops c e) := by
  cases c with
  | play =>
    by_cases hp : getStatus e = Status.Paused
    · simp only [applyCmd, play, hp, if_true]
      intro hstop
      exact absurd (backendState_of_getStatus_stopped hstop) (by simp)
    · simp only [applyCmd, play, hp, if_false]
      exact wf_launchFinish Status.Playing (by decide) _
  | pause =>
    by_cases hp : getStatus e = Status.Playing
    · simp only [applyCmd, pause, hp, if_true]
      intro hstop
      exact absurd (backendState_of_getStatus_stopped hstop) (by simp)
    · simpa [applyCmd, pause, hp] using hwf
  | stop => exact wf_stop e hwf
  | seek t =>
    by_cases h : getStatus e = Status.Stopped
    · simpa [applyCmd, setPlayingOffset, h] using hwf
    · simp only [applyCmd, setPlayingOffset, h, if_false]
      exact wf_launchFinish (getStatus e) h _
  | setLoop b =>
    intro hstop
    have hse : getStatus e = Status.Stopped := by
      rw [← getStatus_congr e (setLoop b e) rfl rfl rfl]
      exact hstop
    exact (hwf hse).imp id (fun hx => hx)
  | tick => exact streamTick_wf ops e hwf

/-- Claim C8: the spawn counter changes only under play or a
playing-offset change (the only operations that launch the streaming
thread), and along any command sequence from a well-formed state no
launch ever happens before the previous thread was joined: the violation
counter stays zero. -/
theorem c8_single_thread_discipline {σ : Type} (ops : SourceOps σ) :
    (∀ (c : SCmd) (e : Engine σ),
      (applyCmd ops c e).spawns ≠ e.spawns →
      c = SCmd.play ∨ ∃ t, c = SCmd.seek t) ∧
    (∀ (l : List SCmd) (e : Engine σ), WF e → e.violations = 0 →
      (applyCmds ops l e).violations = 0) := by
  constructor
  · intro c e hne
    cases c with
    | play => exact Or.inl rfl
    | seek t => exact Or.inr ⟨t, rfl⟩
    | pause =>
      exfalso; apply hne
      by_cases hp : getStatus e = Status.Playing <;>
        simp [applyCmd, pause, hp]
    | stop =>
      exfalso; apply hne
      by_cases h : getStatus e = Status.Stopped
      · simp [applyCmd, stop_eq_of_stopped h]
      · simp [applyCmd, stop_eq_finishStream h, finishStream]
    | setLoop b => exfalso; exact hne (by simp [applyCmd, setLoop])
    | tick => exfalso; exact hne (streamTick_spawns_violations ops e).1
  · intro l
    induction l with
    | nil => intro e hwf h0; exact h0
    | cons c l2 ih =>
      intro e hwf h0
      have h1 := applyCmd_violations ops c e hwf
      exact ih (applyCmd ops c e) (applyCmd_wf ops c e hwf)
        (h1.trans h0)

theorem chainLe_head {K v : ℚ} {q : List BufEntry} (h : chainLe K v q) :
    v ≤ K := by
  cases q with
  | nil => exact h
  | cons b rest => exact h.1

theorem chainEnd_append (v : ℚ) (q : List BufEntry) (b : BufEntry) :
    chainEnd v (q ++ [b]) = applyBuf (chainEnd v q) b := by
  induction q generalizing v with
  | nil => rfl
  | cons a q ih => simpa [chainEnd] using ih (applyBuf v a)

theorem chainLe_append {K : ℚ} (v : ℚ) (q : List BufEntry) (b : BufEntry)
    (h1 : chainLe K v q) (h2 : applyBuf (chainEnd v q) b ≤ K) :
    chainLe K v (q ++ [b]) := by
  induction q generalizing v with
  | nil => exact ⟨h1, h2⟩
  | cons a q ih => exact ⟨h1.1, ih (applyBuf v a) h1.2 h2⟩

theorem pcm_fetch_bound (L : Bool) :
    ∀ (fuel : Nat) (marker : Option Nat) (s : PcmSource),
      s.pos ≤ s.total → s.loopOff ≤ s.total →
      (∀ m, marker = some m → m ≤ s.total ∧ m ≤ s.pos) →
      (fetchAttempts pcmOps L marker fuel s).src.total = s.total ∧
      (fetchAttempts pcmOps L marker fuel s).src.loopOff = s.loopOff ∧
      (fetchAttempts pcmOps L marker fuel s).src.pos ≤ s.total ∧
      (∀ count mk,
        (fetchAttempts pcmOps L marker fuel s).chunk = some (count, mk) →
        (∀ m, mk = some m → m ≤ s.total ∧
          m ≤ (fetchAttempts pcmOps L marker fuel s).src.pos) ∧
        (mk = none → marker = none ∧ count + s.pos ≤ s.total ∧
          count + s.pos ≤
            (fetchAttempts pcmOps L marker fuel s).src.pos)) := by
  intro fuel
  induction fuel with
  | zero =>
    intro marker s h1 h2 hm
    exact ⟨rfl, rfl, h1, fun count mk h => by simp [fetchAttempts] at h⟩
  | succ fuel ih =>
    intro marker s h1 h2 hm
    have hle : min s.chunkSize (s.total - s.pos) ≤ s.total - s.pos :=
      Nat.min_le_right _ _
    have hfact : s.pos + min s.chunkSize (s.total - s.pos) ≤ s.total := by
      omega
    have hunf : fetchAttempts pcmOps L marker (fuel + 1) s =
        (if decide (s.pos + min s.chunkSize (s.total - s.pos) < s.total)
            = true then
          (if min s.chunkSize (s.total - s.pos) = 0 then
            fetchAttempts pcmOps L marker fuel
              { s with pos := s.pos + min s.chunkSize (s.total - s.pos) }
          else
            ⟨some (min s.chunkSize (s.total - s.pos), marker), false,
              { s with
                  pos := s.pos + min s.chunkSize (s.total - s.pos) }⟩)
        else
          (if L = true then
            (if min s.chunkSize (s.total - s.pos) = 0 then
              fetchAttempts pcmOps L (some s.loopOff) fuel
                { s with pos := s.loopOff }
            else
              ⟨some (min s.chunkSize (s.total - s.pos), some s.loopOff),
                false, { s with pos := s.loopOff }⟩)
          else
            ⟨if min s.chunkSize (s.total - s.pos) = 0 then none
              else some (min s.chunkSize (s.total - s.pos), marker), true,
              { s with
                  pos := s.pos + min s.chunkSize (s.total - s.pos) }⟩)) :=
      rfl
    rw [hunf]
    by_cases hc : s.pos + min s.chunkSize (s.total - s.pos) < s.total
    · rw [if_pos (decide_eq_true hc)]
      by_cases hn0 : min s.chunkSize (s.total - s.pos) = 0
      · rw [if_pos hn0, hn0, Nat.add_zero]
        exact ih marker s h1 h2 hm
      · rw [if_neg hn0]
        refine ⟨rfl, rfl, hfact, ?_⟩
        intro count mk h
        simp only [Option.some.injEq, Prod.mk.injEq] at h
        obtain ⟨hcm, hmk⟩ := h
        constructor
        · intro m hmeq
          obtain ⟨ha, hb⟩ := hm m (hmk ▸ hmeq)
          refine ⟨ha, ?_⟩
          show m ≤ s.pos + min s.chunkSize (s.total - s.pos)
          omega
        · intro hmeq
          refine ⟨hmk ▸ hmeq, ?_, ?_⟩
          · omega
          · show count + s.pos ≤
              s.pos + min s.chunkSize (s.total - s.pos)
            omega
    · rw [if_neg (by simpa using hc)]
      have hpos : s.pos + min s.chunkSize (s.total - s.pos) = s.total := by
        omega
      by_cases hL : L = true
      · rw [if_pos hL]
        by_cases hn0 : min s.chunkSize (s.total - s.pos) = 0
        · rw [if_pos hn0]
          have ihh := ih (some s.loopOff) { s with pos := s.loopOff } h2 h2
            (fun m hmeq => by
              obtain rfl : s.loopOff = m := Option.some.injEq .. ▸ hmeq
              exact ⟨h2, le_refl _⟩)
          refine ⟨ihh.1, ihh.2.1, ihh.2.2.1, ?_⟩
          intro count mk h
          obtain ⟨hsome, hnone⟩ := ihh.2.2.2 count mk h
          refine ⟨hsome, ?_⟩
          intro hmeq
          exact absurd (hnone hmeq).1 (by simp)
        · rw [if_neg hn0]
          refine ⟨rfl, rfl, h2, ?_⟩
          intro count mk h
          simp only [Option.some.injEq, Prod.mk.injEq] at h
          obtain ⟨hcm, hmk⟩ := h
          constructor
          · intro m hmeq
            obtain rfl : s.loopOff = m :=
              Option.some.injEq .. ▸ (hmk ▸ hmeq)
            exact ⟨h2, le_refl _⟩
          · intro hmeq
            exact absurd (hmk ▸ hmeq) (by simp)
      · rw [if_neg hL]
        refine ⟨rfl, rfl, hfact, ?_⟩
        intro count mk h
        by_cases hn0 : min s.chunkSize (s.total - s.pos) = 0
        · rw [if_pos hn0] at h
          simp at h
        · rw [if_neg hn0] at h
          simp only [Option.some.injEq, Prod.mk.injEq] at h
          obtain ⟨hcm, hmk⟩ := h
          constructor
          · intro m hmeq
            obtain ⟨ha, hb⟩ := hm m (hmk ▸ hmeq)
            refine ⟨ha, ?_⟩
            show m ≤ s.pos + min s.chunkSize (s.total - s.pos)
            omega
          · intro hmeq
            refine ⟨hmk ▸ hmeq, by omega, ?_⟩
            show count + s.pos ≤
              s.pos + min s.chunkSize (s.total - s.pos)
            omega

theorem pcm_fill_refill_inv (e : Engine PcmSource)
    (hch : chainLe (e.source.total : ℚ) e.samplesProcessed e.queue)
    (hend : chainEnd e.samplesProcessed e.queue ≤ (e.source.pos : ℚ))
    (h3 : e.source.pos ≤ e.source.total)
    (h4 : e.source.loopOff ≤ e.source.total) :
    PcmInv (refillSlot pcmOps e) ∧
    (refillSlot pcmOps e).source.total = e.source.total := by
  obtain ⟨hft, hfl, hfp, hfc⟩ :=
    pcm_fetch_bound e.loop (BufferRetries + 1) none e.source h3 h4
      (by simp)
  rcases hchk : (fetchAttempts pcmOps e.loop none (BufferRetries + 1)
      e.source).chunk with _ | ⟨count, mk⟩
  · have hrs2 : refillSlot pcmOps e =
        { e with
            source := (fetchAttempts pcmOps e.loop none
              (BufferRetries + 1) e.source).src,
            requestStop := true } := by
      rw [refillSlot, fillAndPushBuffer, hchk]
    rw [hrs2]
    refine ⟨⟨?_, ?_, ?_, ?_⟩, hft⟩
    · show chainLe (((fetchAttempts pcmOps e.loop none (BufferRetries + 1)
        e.source).src.total : Nat) : ℚ) e.samplesProcessed e.queue
      rw [hft]
      exact hch
    · intro hfalse
      have hcontra : true = false := hfalse
      simp at hcontra
    · show (fetchAttempts pcmOps e.loop none (BufferRetries + 1)
        e.source).src.pos ≤ (fetchAttempts pcmOps e.loop none
        (BufferRetries + 1) e.source).src.total
      rw [hft]
      exact hfp
    · show (fetchAttempts pcmOps e.loop none (BufferRetries + 1)
        e.source).src.loopOff ≤ (fetchAttempts pcmOps e.loop none
        (BufferRetries + 1) e.source).src.total
      rw [hfl, hft]
      exact h4
  · have hrs2 : refillSlot pcmOps e =
        { e with
            queue := e.queue ++ [⟨count, mk⟩],
            source := (fetchAttempts pcmOps e.loop none
              (BufferRetries + 1) e.source).src,
            requestStop := (fetchAttempts pcmOps e.loop none
              (BufferRetries + 1) e.source).requestStop } := by
      rw [refillSlot, fillAndPushBuffer, hchk]
    obtain ⟨hsome, hnone⟩ := hfc count mk hchk
    have happ : applyBuf (chainEnd e.samplesProcessed e.queue)
        ⟨count, mk⟩ ≤ (e.source.total : ℚ) ∧
        applyBuf (chainEnd e.samplesProcessed e.queue) ⟨count, mk⟩ ≤
          (((fetchAttempts pcmOps e.loop none (BufferRetries + 1)
            e.source).src.pos : Nat) : ℚ) := by
      cases mk with
      | some m =>
        obtain ⟨hma, hmb⟩ := hsome m rfl
        constructor
        · show (m : ℚ) ≤ (e.source.total : ℚ)
          exact_mod_cast hma
        · show (m : ℚ) ≤ _
          exact_mod_cast hmb
      | none =>
        obtain ⟨_, hna, hnb⟩ := hnone rfl
        have h5 : e.source.pos + count ≤ e.source.total := by omega
        have h6 : e.source.pos + count ≤ (fetchAttempts pcmOps e.loop none
            (BufferRetries + 1) e.source).src.pos := by omega
        constructor
        · show chainEnd e.samplesProcessed e.queue + (count : ℚ) ≤ _
          calc chainEnd e.samplesProcessed e.queue + (count : ℚ) ≤
              (e.source.pos : ℚ) + count := add_le_add_right hend _
            _ ≤ (e.source.total : ℚ) := by exact_mod_cast h5
        · show chainEnd e.samplesProcessed e.queue + (count : ℚ) ≤ _
          calc chainEnd e.samplesProcessed e.queue + (count : ℚ) ≤
              (e.source.pos : ℚ) + count := add_le_add_right hend _
            _ ≤ _ := by exact_mod_cast h6
    rw [hrs2]
    refine ⟨⟨?_, ?_, ?_, ?_⟩, hft⟩
    · show chainLe (((fetchAttempts pcmOps e.loop none (BufferRetries + 1)
        e.source).src.total : Nat) : ℚ) e.samplesProcessed
        (e.queue ++ [⟨count, mk⟩])
      rw [hft]
      exact chainLe_append _ _ _ hch happ.1
    · intro _
      show chainEnd e.samplesProcessed (e.queue ++ [⟨count, mk⟩]) ≤ _
      rw [chainEnd_append]
      exact happ.2
    · show (fetchAttempts pcmOps e.loop none (BufferRetries + 1)
        e.source).src.pos ≤ (fetchAttempts pcmOps e.loop none
        (BufferRetries + 1) e.source).src.total
      rw [hft]
      exact hfp
    · show (fetchAttempts pcmOps e.loop none (BufferRetries + 1)
        e.source).src.loopOff ≤ (fetchAttempts pcmOps e.loop none
        (BufferRetries + 1) e.source).src.total
      rw [hfl, hft]
      exact h4

theorem pcm_tick_inv (e : Engine PcmSource) (hinv : PcmInv e) :
    PcmInv (streamTick pcmOps e) ∧
    (streamTick pcmOps e).source.total = e.source.total := by
  obtain ⟨h1, h2, h3, h4⟩ := hinv
  rcases streamTick_cases pcmOps e with h | h | ⟨b, rest, hq, hrs, h⟩ |
    ⟨b, rest, hq, hrs, h⟩ <;> rw [h]
  · exact ⟨⟨h1, h2, h3, h4⟩, rfl⟩
  · refine ⟨⟨?_, ?_, h3, h4⟩, rfl⟩
    · show chainLe (e.source.total : ℚ) 0 []
      exact Nat.cast_nonneg _
    · intro _
      show (0 : ℚ) ≤ (e.source.pos : ℚ)
      exact Nat.cast_nonneg _
  · rw [hq] at h1 h2
    refine ⟨⟨h1.2, ?_, h3, h4⟩, rfl⟩
    intro hfalse
    have hcontra : e.requestStop = false := hfalse
    rw [hrs] at hcontra
    simp at hcontra
  · rw [hq] at h1 h2
    have hend2 : chainEnd (applyBuf e.samplesProcessed b) rest ≤
        (e.source.pos : ℚ) := h2 hrs
    exact pcm_fill_refill_inv (consumeFront e b rest) h1.2 hend2 h3 h4

/-- Claim C2: when a consumed buffer slot carries a loopSeek marker, the
accountant sets samplesProcessed to exactly the marker offset (no
residual is added); and for a PCM source of finite total content,
samplesProcessed never exceeds that total across the streaming loop
between wraps. -/
theorem c2_loopSeek_marker_accounting :
    (∀ (σ : Type) (ops : SourceOps σ) (e : Engine σ) (S count : Nat)
      (rest : List BufEntry), e.isStreaming = true →
      e.backendState = Status.Playing →
      e.queue = ⟨count, some S⟩ :: rest →
      (streamTick ops e).samplesProcessed = S) ∧
    (∀ (e : Engine PcmSource) (n : Nat), PcmInv e →
      ((streamTick pcmOps)^[n] e).samplesProcessed ≤
        (e.source.total : ℚ)) := by
  constructor
  · intro σ ops e S count rest hs hb hq
    have h1 :=
      (streamTick_consume_fields ops e ⟨count, some S⟩ rest hs hb hq).1
    rw [h1, applyBuf]
  · intro e n
    induction n generalizing e with
    | zero => intro hinv; exact chainLe_head hinv.1
    | succ n ih =>
      intro hinv
      rw [Function.iterate_succ_apply]
      obtain ⟨hinv2, htot⟩ := pcm_tick_inv e hinv
      have hle := ih (streamTick pcmOps e) hinv2
      rw [htot] at hle
      exact hle

/-- Witness for C2: consuming the marked buffer sets samplesProcessed to
exactly two, and three loop iterations over the eight-sample looping
source keep samplesProcessed at or below eight. -/
theorem c2_loopSeek_marker_accounting_witness :
    (streamTick pcmOps ePcmMarked).samplesProcessed = 2 ∧
    ((streamTick pcmOps)^[3] ePcm).samplesProcessed ≤ ((8 : Nat) : ℚ) :=
  ⟨c2_loopSeek_marker_accounting.1 PcmSource pcmOps ePcmMarked 2 2 []
     (by decide) (by decide) (by decide),
   c2_loopSeek_marker_accounting.2 ePcm 3
     ⟨by norm_num [chainLe, ePcm],
      fun _ => by norm_num [chainEnd, ePcm],
      by norm_num [ePcm], by norm_num [ePcm]⟩⟩

/-- Witness for C8: play changes the spawn counter on a fresh stream, and
a play-tick-stop sequence from the fresh stream records no violation. -/
theorem c8_single_thread_discipline_witness :
    ((applyCmd onesOps SCmd.play freshStream).spawns ≠
        freshStream.spawns →
      SCmd.play = SCmd.play ∨ ∃ t, SCmd.play = SCmd.seek t) ∧
    (applyCmds onesOps [SCmd.play, SCmd.tick, SCmd.stop]
      freshStream).violations = 0 :=
  ⟨(c8_single_thread_discipline onesOps).1 SCmd.play freshStream,
   (c8_single_thread_discipline onesOps).2
     [SCmd.play, SCmd.tick, SCmd.stop] freshStream
     (by decide) (by decide)⟩

end SfmlSpec
